import Mathlib

/-!
# Verification of the twoliter image lock/resolution module

A shallow embedding of `src/twoliter/src/project/lock/image.rs`: the
`LockedImage` record with its hand-written `PartialEq` and derived
lexicographic `Ord`, the `EncodedKitMetadata` label blob and its decode
pipeline (base64 → JSON → `ImageMetadata`), and the `ImageResolver`
orchestration (`resolve`, `extract`) with the external image tool and
archive collaborators modelled as explicit function records.  External
calls are recorded in an explicit trace so that claims about "no config
fetch" or "exactly one read" are statable.

Types of this repository that live outside the provided slice
(`crate::project::Image`, `ProjectImage`, `ValidIdentifier`, the
`views::ManifestListView`) are modelled from the spec and marked as such
in their doc comments.
-/

set_option maxRecDepth 100000

deriving instance DecidableEq for Except

namespace Twoliter

/-! ## Ordering helpers (Rust `Ord` derive semantics) -/

/-- Comparison of lists of naturals, lexicographic, as Rust compares byte
slices / `Vec<u8>`. -/
def natListCmp : List Nat → List Nat → Ordering
  | [], [] => .eq
  | [], _ :: _ => .lt
  | _ :: _, [] => .gt
  | a :: as_, b :: bs =>
    match compare a b with
    | .eq => natListCmp as_ bs
    | o => o

/-- Rust `str` comparison is byte-wise lexicographic; on the ASCII strings
this module manipulates that coincides with code-point order. -/
def strCmp (a b : String) : Ordering :=
  natListCmp (a.data.map Char.toNat) (b.data.map Char.toNat)

theorem natListCmp_eq_iff : ∀ {xs ys : List Nat}, natListCmp xs ys = .eq ↔ xs = ys := by
  intro xs
  induction xs with
  | nil => intro ys; cases ys <;> simp [natListCmp]
  | cons a as_ ih =>
    intro ys
    cases ys with
    | nil => simp [natListCmp]
    | cons b bs =>
      simp only [natListCmp]
      cases h : compare a b with
      | lt =>
        have hne : a ≠ b := Nat.ne_of_lt (Nat.compare_eq_lt.mp h)
        simp [hne]
      | eq =>
        have hab : a = b := Nat.compare_eq_eq.mp h
        simp [hab, ih]
      | gt =>
        have hne : a ≠ b := (Nat.ne_of_lt (Nat.compare_eq_gt.mp h)).symm
        simp [hne]

theorem charToNat_injective : Function.Injective Char.toNat := by
  intro c d hcd
  unfold Char.toNat at hcd
  exact Char.ext (UInt32.toNat.inj hcd)

theorem strCmp_eq_iff {a b : String} : strCmp a b = .eq ↔ a = b := by
  unfold strCmp
  rw [natListCmp_eq_iff]
  constructor
  · intro h
    have hdata : a.data = b.data := List.map_injective_iff.mpr charToNat_injective h
    cases a; cases b; exact congrArg String.mk hdata
  · intro h; subst h; rfl

/-! ## Semantic versions

`semver::Version` is an external crate type.  We model it at the fidelity
the lock module relies on: three numeric components plus raw pre-release
and build-metadata strings, compared in the order the crate compares them
(major, minor, patch, pre-release with "empty is greater", then build
metadata lexically to make the order total). -/

/-- A semantic version as used by the lock module. -/
structure SemVer where
  major : Nat
  minor : Nat
  patch : Nat
  pre : String
  build : String
deriving DecidableEq, Repr

/-- Pre-release precedence: an empty pre-release (a release) is greater
than any non-empty one; non-empty pre-releases are compared lexically
(identifier-level numeric comparison is not needed by any claim here). -/
def preCmp (a b : String) : Ordering :=
  if a = b then .eq
  else if a = "" then .gt
  else if b = "" then .lt
  else strCmp a b

/-- `semver::Version` comparison: major, minor, patch, pre-release, build. -/
def semVerCmp (a b : SemVer) : Ordering :=
  (compare a.major b.major).then
    ((compare a.minor b.minor).then
      ((compare a.patch b.patch).then
        ((preCmp a.pre b.pre).then (strCmp a.build b.build))))

/-! ## LockedImage

Mirrors the Rust struct:

```rust
#[derive(Debug, Clone, Eq, Ord, PartialOrd, Serialize, Deserialize)]
pub(crate) struct LockedImage { name, version, vendor, source, digest }

impl PartialEq for LockedImage {
    fn eq(&self, other: &Self) -> bool {
        self.source == other.source && self.digest == other.digest
    }
}
```

`ValidIdentifier` (a validated wrapper around a string, not in the
provided slice) is modelled from the spec as a plain string. -/

/-- The resolved, content-addressed lockfile record. -/
structure LockedImage where
  name : String
  version : SemVer
  vendor : String
  source : String
  digest : String
deriving DecidableEq, Repr

/-- The hand-written `PartialEq for LockedImage`: source and digest only. -/
def lockedImageEq (a b : LockedImage) : Bool :=
  a.source == b.source && a.digest == b.digest

/-- The derived `Ord for LockedImage`: lexicographic over the fields in
declaration order — name, version, vendor, source, digest.  (Rust's
`derive(Ord)` always compares all fields in order; it does not see the
hand-written `PartialEq`.) -/
def lockedImageCmp (a b : LockedImage) : Ordering :=
  (strCmp a.name b.name).then
    ((semVerCmp a.version b.version).then
      ((strCmp a.vendor b.vendor).then
        ((strCmp a.source b.source).then (strCmp a.digest b.digest))))

theorem lockedImageEq_iff {a b : LockedImage} :
    lockedImageEq a b = true ↔ (a.source = b.source ∧ a.digest = b.digest) := by
  simp [lockedImageEq]

theorem lockedImageCmp_eq_then {a b : LockedImage} (h : lockedImageCmp a b = .eq) :
    strCmp a.source b.source = .eq ∧ strCmp a.digest b.digest = .eq := by
  unfold lockedImageCmp at h
  cases h1 : strCmp a.name b.name <;> rw [h1] at h <;> simp only [Ordering.then] at h
  case lt => cases h
  case gt => cases h
  cases h2 : semVerCmp a.version b.version <;> rw [h2] at h <;> simp only [Ordering.then] at h
  case lt => cases h
  case gt => cases h
  cases h3 : strCmp a.vendor b.vendor <;> rw [h3] at h <;> simp only [Ordering.then] at h
  case lt => cases h
  case gt => cases h
  cases h4 : strCmp a.source b.source <;> rw [h4] at h <;> simp only [Ordering.then] at h
  case lt => cases h
  case gt => cases h
  exact ⟨rfl, h⟩

/-! ## Base64 (standard alphabet, padded, canonical)

Models `base64::engine::general_purpose::STANDARD`: encoding emits padded
output; decoding requires canonical padding and rejects non-zero trailing
bits as well as any character outside the alphabet. -/

/-- The standard base64 alphabet. -/
def b64Alphabet : List Char :=
  "ABCDEFGHIJKLMNOPQRSTUVWXYZabcdefghijklmnopqrstuvwxyz0123456789+/".data

/-- Character for a 6-bit value. -/
def b64Char (n : Nat) : Char := b64Alphabet.getD n 'A'

/-- Encode a byte list, three bytes at a time, padding the tail. -/
def base64EncodeChars : List Nat → List Char
  | b0 :: b1 :: b2 :: rest =>
    let n := b0 * 65536 + b1 * 256 + b2
    b64Char (n / 262144 % 64) :: b64Char (n / 4096 % 64) :: b64Char (n / 64 % 64) ::
      b64Char (n % 64) :: base64EncodeChars rest
  | [b0, b1] =>
    let n := b0 * 1024 + b1 * 4
    [b64Char (n / 4096 % 64), b64Char (n / 64 % 64), b64Char (n % 64), '=']
  | [b0] =>
    let n := b0 * 16
    [b64Char (n / 64 % 64), b64Char (n % 64), '=', '=']
  | [] => []

/-- `STANDARD.encode` on a byte payload. -/
def base64Encode (bs : List Nat) : String := ⟨base64EncodeChars bs⟩

/-- 6-bit value of an alphabet character, `none` outside the alphabet. -/
def b64Val (c : Char) : Option Nat :=
  if 'A' ≤ c ∧ c ≤ 'Z' then some (c.toNat - 65)
  else if 'a' ≤ c ∧ c ≤ 'z' then some (c.toNat - 97 + 26)
  else if '0' ≤ c ∧ c ≤ '9' then some (c.toNat - 48 + 52)
  else if c = '+' then some 62
  else if c = '/' then some 63
  else none

/-- Strict base64 decoding: groups of four characters, canonical padding
only in the final group, trailing bits must be zero. -/
def base64DecodeChars : List Char → Option (List Nat)
  | [] => some []
  | c0 :: c1 :: c2 :: c3 :: rest =>
    match b64Val c0, b64Val c1 with
    | some v0, some v1 =>
      if c2 = '=' then
        if c3 = '=' ∧ rest = [] then
          if v1 % 16 = 0 then some [v0 * 4 + v1 / 16] else none
        else none
      else
        match b64Val c2 with
        | some v2 =>
          if c3 = '=' then
            if rest = [] then
              if v2 % 4 = 0 then some [v0 * 4 + v1 / 16, v1 % 16 * 16 + v2 / 4] else none
            else none
          else
            match b64Val c3 with
            | some v3 =>
              (base64DecodeChars rest).map fun tail =>
                (v0 * 4 + v1 / 16) :: (v1 % 16 * 16 + v2 / 4) :: (v2 % 4 * 64 + v3) :: tail
            | none => none
        | none => none
    | _, _ => none
  | _ => none

/-- `STANDARD.decode` on a string. -/
def base64Decode (s : String) : Option (List Nat) := base64DecodeChars s.data

/-! ## SHA-256 (`sha2::Sha256`), over byte lists with `Nat` words mod 2³² -/

/-- Truncate to a 32-bit word. -/
def w32 (n : Nat) : Nat := n % 4294967296

/-- Rotate a word right by `n` bits, in arithmetic form (the input is a
`Nat` below 2³²). -/
def rotr (n x : Nat) : Nat := x / 2 ^ n + x % 2 ^ n * 2 ^ (32 - n)

/-- Shift a word right by `n` bits. -/
def shr (n x : Nat) : Nat := x / 2 ^ n

/-- Bitwise complement of a 32-bit word. -/
def not32 (x : Nat) : Nat := 4294967295 - x

/-- SHA-256 choice function. -/
def shaCh (x y z : Nat) : Nat := (x &&& y) ^^^ (not32 x &&& z)

/-- SHA-256 majority function. -/
def shaMaj (x y z : Nat) : Nat := (x &&& y) ^^^ (x &&& z) ^^^ (y &&& z)

/-- SHA-256 Σ₀. -/
def bigSigma0 (x : Nat) : Nat := rotr 2 x ^^^ rotr 13 x ^^^ rotr 22 x

/-- SHA-256 Σ₁. -/
def bigSigma1 (x : Nat) : Nat := rotr 6 x ^^^ rotr 11 x ^^^ rotr 25 x

/-- SHA-256 σ₀. -/
def smallSigma0 (x : Nat) : Nat := rotr 7 x ^^^ rotr 18 x ^^^ shr 3 x

/-- SHA-256 σ₁. -/
def smallSigma1 (x : Nat) : Nat := rotr 17 x ^^^ rotr 19 x ^^^ shr 10 x

/-- The 64 round constants of FIPS 180-4 §4.2.2, in decimal. -/
def shaK : List Nat :=
  [1116352408, 1899447441, 3049323471, 3921009573,
   961987163, 1508970993, 2453635748, 2870763221,
   3624381080, 310598401, 607225278, 1426881987,
   1925078388, 2162078206, 2614888103, 3248222580,
   3835390401, 4022224774, 264347078, 604807628,
   770255983, 1249150122, 1555081692, 1996064986,
   2554220882, 2821834349, 2952996808, 3210313671,
   3336571891, 3584528711, 113926993, 338241895,
   666307205, 773529912, 1294757372, 1396182291,
   1695183700, 1986661051, 2177026350, 2456956037,
   2730485921, 2820302411, 3259730800, 3345764771,
   3516065817, 3600352804, 4094571909, 275423344,
   430227734, 506948616, 659060556, 883997877,
   958139571, 1322822218, 1537002063, 1747873779,
   1955562222, 2024104815, 2227730452, 2361852424,
   2428436474, 2756734187, 3204031479, 3329325298]

/-- Working state of the compression function. -/
structure SHAState where
  a : Nat
  b : Nat
  c : Nat
  d : Nat
  e : Nat
  f : Nat
  g : Nat
  h : Nat
deriving DecidableEq, Repr

/-- The initial hash value of FIPS 180-4 §5.3.3, in decimal. -/
def shaInit : SHAState :=
  ⟨1779033703, 3144134277, 1013904242, 2773480762,
   1359893119, 2600822924, 528734635, 1541459225⟩

/-- One compression round. -/
def compressRound (k w : Nat) (s : SHAState) : SHAState :=
  let t1 := w32 (s.h + bigSigma1 s.e + shaCh s.e s.f s.g + k + w)
  let t2 := w32 (bigSigma0 s.a + shaMaj s.a s.b s.c)
  ⟨w32 (t1 + t2), s.a, s.b, s.c, w32 (s.d + t1), s.e, s.f, s.g⟩

/-- Run the 64 rounds over paired (constant, schedule word) lists. -/
def compressRounds : List (Nat × Nat) → SHAState → SHAState
  | [], s => s
  | (k, w) :: rest, s => compressRounds rest (compressRound k w s)

/-- Extend the message schedule; `acc` is the schedule so far, reversed. -/
def extendSchedule : Nat → List Nat → List Nat
  | 0, acc => acc.reverse
  | fuel + 1, acc =>
    let wNew := w32 (smallSigma1 (acc.getD 1 0) + acc.getD 6 0 +
      smallSigma0 (acc.getD 14 0) + acc.getD 15 0)
    extendSchedule fuel (wNew :: acc)

/-- Big-endian bytes of `n`, `k` bytes wide. -/
def beBytes : Nat → Nat → List Nat
  | 0, _ => []
  | k + 1, n => n / 2 ^ (8 * k) % 256 :: beBytes k n

/-- Big-endian 32-bit words from a byte list (length a multiple of 4). -/
def bytesToWords : List Nat → List Nat
  | b0 :: b1 :: b2 :: b3 :: rest =>
    (b0 * 16777216 + b1 * 65536 + b2 * 256 + b3) :: bytesToWords rest
  | _ => []

/-- Split a word list into 16-word blocks (fuel-driven). -/
def chunkWordsAux : Nat → List Nat → List (List Nat)
  | 0, _ => []
  | _, [] => []
  | fuel + 1, ws => ws.take 16 :: chunkWordsAux fuel (ws.drop 16)

/-- Split a word list into 16-word blocks. -/
def chunkWords (ws : List Nat) : List (List Nat) := chunkWordsAux ws.length ws

/-- SHA-256 padding: `0x80`, zeros to 56 mod 64, 8-byte big-endian bit length. -/
def padMessage (msg : List Nat) : List Nat :=
  let zeros := (119 - msg.length % 64) % 64
  msg ++ 128 :: (List.replicate zeros 0 ++ beBytes 8 (8 * msg.length))

/-- Process one 16-word block. -/
def processBlock (h0 : SHAState) (block : List Nat) : SHAState :=
  let w := extendSchedule 48 block.reverse
  let s := compressRounds (shaK.zip w) h0
  ⟨w32 (h0.a + s.a), w32 (h0.b + s.b), w32 (h0.c + s.c), w32 (h0.d + s.d),
   w32 (h0.e + s.e), w32 (h0.f + s.f), w32 (h0.g + s.g), w32 (h0.h + s.h)⟩

/-- `sha2::Sha256::digest` over a byte payload, as the 32 digest bytes. -/
def sha256Bytes (msg : List Nat) : List Nat :=
  let s := (chunkWords (bytesToWords (padMessage msg))).foldl processBlock shaInit
  beBytes 4 s.a ++ beBytes 4 s.b ++ beBytes 4 s.c ++ beBytes 4 s.d ++
    beBytes 4 s.e ++ beBytes 4 s.f ++ beBytes 4 s.g ++ beBytes 4 s.h

/-! ## JSON (the fragment of `serde_json` the lock module exercises)

A whitespace-insensitive recursive-descent parser into a JSON value tree,
with the strictness `serde_json::from_slice` has on the inputs that occur
here: full input must be consumed, strings reject raw control characters,
numbers follow the JSON grammar, arrays and objects reject trailing
commas.  (`\uXXXX` escapes decode single scalar values; surrogate pairs
are rejected — no claim touches them.) -/

/-- A JSON value; numbers are kept as their raw literal text since no
field of the kit metadata is numeric. -/
inductive Json where
  | null
  | bool (b : Bool)
  | num (raw : String)
  | str (s : String)
  | arr (items : List Json)
  | obj (fields : List (String × Json))

/-- JSON whitespace. -/
def isWs (c : Char) : Bool := c = ' ' || c = '\t' || c = '\n' || c = '\r'

/-- Drop leading JSON whitespace. -/
def skipWs : List Char → List Char
  | c :: rest => if isWs c then skipWs rest else c :: rest
  | [] => []

/-- Hex digit value. -/
def hexVal (c : Char) : Option Nat :=
  if '0' ≤ c ∧ c ≤ '9' then some (c.toNat - 48)
  else if 'a' ≤ c ∧ c ≤ 'f' then some (c.toNat - 97 + 10)
  else if 'A' ≤ c ∧ c ≤ 'F' then some (c.toNat - 65 + 10)
  else none

/-- Body of a JSON string after the opening quote: the decoded characters
and the remainder after the closing quote. -/
def parseStringChars : List Char → Option (List Char × List Char)
  | '"' :: rest => some ([], rest)
  | '\\' :: 'u' :: h1 :: h2 :: h3 :: h4 :: rest =>
    match hexVal h1, hexVal h2, hexVal h3, hexVal h4 with
    | some v1, some v2, some v3, some v4 =>
      let n := v1 * 4096 + v2 * 256 + v3 * 16 + v4
      if 0xd800 ≤ n ∧ n ≤ 0xdfff then none
      else (parseStringChars rest).map fun p => (Char.ofNat n :: p.1, p.2)
    | _, _, _, _ => none
  | '\\' :: e :: rest =>
    let esc : Option Char :=
      if e = '"' then some '"'
      else if e = '\\' then some '\\'
      else if e = '/' then some '/'
      else if e = 'b' then some (Char.ofNat 8)
      else if e = 'f' then some (Char.ofNat 12)
      else if e = 'n' then some '\n'
      else if e = 'r' then some '\r'
      else if e = 't' then some '\t'
      else none
    match esc with
    | some c => (parseStringChars rest).map fun p => (c :: p.1, p.2)
    | none => none
  | c :: rest =>
    if c.toNat < 32 then none
    else (parseStringChars rest).map fun p => (c :: p.1, p.2)
  | [] => none

/-- A JSON string body as a `String`. -/
def parseStringBody (cs : List Char) : Option (String × List Char) :=
  (parseStringChars cs).map fun p => (⟨p.1⟩, p.2)

/-- Longest digit span. -/
def digitSpan : List Char → List Char × List Char
  | c :: rest =>
    if c.isDigit then
      let p := digitSpan rest
      (c :: p.1, p.2)
    else ([], c :: rest)
  | [] => ([], [])

/-- Optional fraction part. -/
def parseFracPart : List Char → Option (List Char × List Char)
  | '.' :: rest =>
    match digitSpan rest with
    | ([], _) => none
    | (ds, r) => some ('.' :: ds, r)
  | cs => some ([], cs)

/-- Optional exponent part. -/
def parseExpPart : List Char → Option (List Char × List Char)
  | c :: rest =>
    if c = 'e' || c = 'E' then
      match rest with
      | s :: r2 =>
        if s = '+' || s = '-' then
          match digitSpan r2 with
          | ([], _) => none
          | (ds, r) => some (c :: s :: ds, r)
        else
          match digitSpan (s :: r2) with
          | ([], _) => none
          | (ds, r) => some (c :: ds, r)
      | [] => none
    else some ([], c :: rest)
  | [] => some ([], [])

/-- A JSON number literal, kept raw. -/
def parseNumberLit (cs : List Char) : Option (Json × List Char) :=
  let signed : Bool × List Char :=
    match cs with
    | '-' :: r => (true, r)
    | _ => (false, cs)
  let intPart : Option (List Char × List Char) :=
    match signed.2 with
    | '0' :: r => some (['0'], r)
    | c :: r =>
      if c.isDigit then
        let p := digitSpan r
        some (c :: p.1, p.2)
      else none
    | [] => none
  match intPart with
  | none => none
  | some (ip, r1) =>
    match parseFracPart r1 with
    | none => none
    | some (fp, r2) =>
      match parseExpPart r2 with
      | none => none
      | some (ep, r3) =>
        some (.num ⟨(if signed.1 then ['-'] else []) ++ ip ++ fp ++ ep⟩, r3)

mutual

/-- Parse one JSON value (fuel-driven; fuel bounds nesting and item count). -/
def parseValue : Nat → List Char → Option (Json × List Char)
  | 0, _ => none
  | fuel + 1, cs =>
    match skipWs cs with
    | 'n' :: 'u' :: 'l' :: 'l' :: rest => some (.null, rest)
    | 't' :: 'r' :: 'u' :: 'e' :: rest => some (.bool true, rest)
    | 'f' :: 'a' :: 'l' :: 's' :: 'e' :: rest => some (.bool false, rest)
    | '"' :: rest => (parseStringBody rest).map fun p => (.str p.1, p.2)
    | '[' :: rest =>
      match skipWs rest with
      | ']' :: r2 => some (.arr [], r2)
      | r2 => (parseItems fuel r2).map fun p => (.arr p.1, p.2)
    | '{' :: rest =>
      match skipWs rest with
      | '}' :: r2 => some (.obj [], r2)
      | r2 => (parseFields fuel r2).map fun p => (.obj p.1, p.2)
    | c :: rest =>
      if c = '-' || c.isDigit then parseNumberLit (c :: rest) else none
    | [] => none

/-- Parse the items of a non-empty array, including the closing bracket. -/
def parseItems : Nat → List Char → Option (List Json × List Char)
  | 0, _ => none
  | fuel + 1, cs =>
    match parseValue fuel cs with
    | some (j, rest) =>
      match skipWs rest with
      | ',' :: r2 => (parseItems fuel r2).map fun p => (j :: p.1, p.2)
      | ']' :: r2 => some ([j], r2)
      | _ => none
    | none => none

/-- Parse the fields of a non-empty object, including the closing brace. -/
def parseFields : Nat → List Char → Option (List (String × Json) × List Char)
  | 0, _ => none
  | fuel + 1, cs =>
    match skipWs cs with
    | '"' :: rest =>
      match parseStringBody rest with
      | some (key, r1) =>
        match skipWs r1 with
        | ':' :: r2 =>
          match parseValue fuel r2 with
          | some (j, r3) =>
            match skipWs r3 with
            | ',' :: r4 => (parseFields fuel r4).map fun p => ((key, j) :: p.1, p.2)
            | '}' :: r4 => some ([(key, j)], r4)
            | _ => none
          | none => none
        | _ => none
      | none => none
    | _ => none

end

/-- `serde_json::from_slice` shape: parse one value, require the rest to
be whitespace. -/
def parseJsonText (cs : List Char) : Option Json :=
  match parseValue (2 * cs.length + 2) cs with
  | some (j, rest) => if skipWs rest = [] then some j else none
  | none => none

/-- UTF-8 decoding restricted to the ASCII fragment every input in this
development lives in; a byte ≥ 128 is rejected. -/
def asciiChars? : List Nat → Option (List Char)
  | [] => some []
  | b :: rest =>
    if b < 128 then (asciiChars? rest).map (Char.ofNat b :: ·) else none

/-! ## Semantic-version and image-reference decoding

`semver::Version` deserializes from a JSON string in semver syntax.
`crate::project::Image` is code of this repository outside the provided
slice.  Modelled from the spec: "Image (external input): a declared
reference — name, vendor, version" (§3); unknown JSON fields are ignored,
as serde does by default. -/

/-- Digits of a numeric identifier: nonempty, no leading zero. -/
def validNumeric (cs : List Char) : Bool :=
  match cs with
  | [] => false
  | ['0'] => true
  | c :: rest => c.isDigit && c ≠ '0' && rest.all Char.isDigit

/-- Decimal value of a digit list. -/
def natOfDigits (cs : List Char) : Nat :=
  cs.foldl (fun acc c => acc * 10 + (c.toNat - 48)) 0

/-- Read a numeric identifier off the front. -/
def takeNumeric (cs : List Char) : Option (Nat × List Char) :=
  let p := digitSpan cs
  if validNumeric p.1 then some (natOfDigits p.1, p.2) else none

/-- Split at the first occurrence of a separator character. -/
def splitAtChar (sep : Char) : List Char → List Char × Option (List Char)
  | [] => ([], none)
  | c :: rest =>
    if c = sep then ([], some rest)
    else
      let p := splitAtChar sep rest
      (c :: p.1, p.2)

/-- Characters allowed in pre-release/build identifiers. -/
def isIdentChar (c : Char) : Bool :=
  c.isAlpha || c.isDigit || c = '-'

/-- Split into segments at every occurrence of a separator character. -/
def splitSegments (sep : Char) : List Char → List (List Char)
  | [] => [[]]
  | c :: rest =>
    if c = sep then [] :: splitSegments sep rest
    else
      match splitSegments sep rest with
      | seg :: segs => (c :: seg) :: segs
      | [] => [[c]]

/-- Validate a dot-separated identifier sequence (pre-release or build
metadata); `numStrict` additionally rejects leading zeros in purely
numeric identifiers, as semver does for pre-release. -/
def validIdentSeq (numStrict : Bool) (cs : List Char) : Bool :=
  (splitSegments '.' cs).all fun s =>
    !s.isEmpty && s.all isIdentChar &&
      (!numStrict || !s.all Char.isDigit || validNumeric s)

/-- Parse a `semver::Version` string. -/
def parseSemVer (s : String) : Option SemVer :=
  match takeNumeric s.data with
  | none => none
  | some (major, r1) =>
    match r1 with
    | '.' :: r1b =>
      match takeNumeric r1b with
      | none => none
      | some (minor, r2) =>
        match r2 with
        | '.' :: r2b =>
          match takeNumeric r2b with
          | none => none
          | some (patch, r3) =>
            match r3 with
            | [] => some ⟨major, minor, patch, "", ""⟩
            | '-' :: r4 =>
              let p := splitAtChar '+' r4
              let pre := p.1
              match p.2 with
              | none =>
                if validIdentSeq true pre then some ⟨major, minor, patch, ⟨pre⟩, ""⟩ else none
              | some build =>
                if validIdentSeq true pre && validIdentSeq false build then
                  some ⟨major, minor, patch, ⟨pre⟩, ⟨build⟩⟩
                else none
            | '+' :: r4 =>
              if validIdentSeq false r4 then some ⟨major, minor, patch, "", ⟨r4⟩⟩ else none
            | _ => none
        | _ => none
    | _ => none

/-- An image reference as recorded in kit metadata.  Modelled from the
spec: `crate::project::Image` is outside the provided slice; §3 gives it
name, vendor and a version. -/
structure Image where
  name : String
  version : SemVer
  vendor : String
deriving DecidableEq, Repr

/-- Fields of a JSON object keyed `key`. -/
def fieldsNamed (fields : List (String × Json)) (key : String) : List Json :=
  (fields.filter fun f => f.1 = key).map fun f => f.2

/-- The value of a required field, failing on absence or duplication as
serde's derived `Deserialize` does. -/
def uniqueField (fields : List (String × Json)) (key : String) : Option Json :=
  match fieldsNamed fields key with
  | [j] => some j
  | _ => none

/-- `String` from JSON. -/
def jsonStr? : Json → Option String
  | .str s => some s
  | _ => none

/-- Object fields from JSON. -/
def jsonObj? : Json → Option (List (String × Json))
  | .obj fields => some fields
  | _ => none

/-- Array items from JSON. -/
def jsonArr? : Json → Option (List Json)
  | .arr items => some items
  | _ => none

/-- `semver::Version` from a JSON value (deserialized from a string). -/
def semVerFromJson (j : Json) : Option SemVer := (jsonStr? j).bind parseSemVer

/-- `Image` from a JSON value (derived serde semantics: required fields,
duplicates rejected, unknown fields ignored). -/
def imageFromJson (j : Json) : Option Image :=
  (jsonObj? j).bind fun fields =>
    (uniqueField fields "name").bind fun nameJ =>
      (jsonStr? nameJ).bind fun name =>
        (uniqueField fields "version").bind fun versionJ =>
          (semVerFromJson versionJ).bind fun version =>
            (uniqueField fields "vendor").bind fun vendorJ =>
              (jsonStr? vendorJ).map fun vendor => ⟨name, version, vendor⟩

/-- All-or-nothing traversal of a list of JSON values as images. -/
def imagesFromJson : List Json → Option (List Image)
  | [] => some []
  | j :: rest =>
    (imageFromJson j).bind fun i => (imagesFromJson rest).map (i :: ·)

/-- The decoded kit metadata, mirroring

```rust
struct ImageMetadata { name: String, version: Version, sdk: Image,
                       #[serde(rename = "kit")] kits: Vec<Image> }
``` -/
structure ImageMetadata where
  name : String
  version : SemVer
  sdk : Image
  kits : List Image
deriving DecidableEq, Repr

/-- `ImageMetadata` from a JSON value; the `kits` field reads the JSON
key `kit` per the serde rename. -/
def imageMetadataFromJson (j : Json) : Option ImageMetadata :=
  (jsonObj? j).bind fun fields =>
    (uniqueField fields "name").bind fun nameJ =>
      (jsonStr? nameJ).bind fun name =>
        (uniqueField fields "version").bind fun versionJ =>
          (semVerFromJson versionJ).bind fun version =>
            (uniqueField fields "sdk").bind fun sdkJ =>
              (imageFromJson sdkJ).bind fun sdk =>
                (uniqueField fields "kit").bind fun kitJ =>
                  (jsonArr? kitJ).bind fun kitItems =>
                    (imagesFromJson kitItems).map fun kits => ⟨name, version, sdk, kits⟩

/-- `serde_json::from_slice::<ImageMetadata>` on a byte payload. -/
def imageMetadataFromBytes (bs : List Nat) : Option ImageMetadata :=
  (asciiChars? bs).bind fun cs => (parseJsonText cs).bind imageMetadataFromJson

/-! ## Error taxonomy

The Rust code uses `anyhow` error chains; this embedding replaces each
distinct failure site with a constructor carrying the context message the
site attaches, so that error classes are distinguishable in statements
(spec §7's taxonomy). -/

/-- Failure cases of the lock module, one constructor per failure site. -/
inductive Err where
  /-- An error surfaced by the image tool or archive collaborator. -/
  | toolErr (msg : String)
  /-- `resolve`: "no registry found for image". -/
  | noRegistry
  /-- `get_manifest`: "failed to deserialize manifest list". -/
  | manifestParseErr (msg : String)
  /-- `try_from_image`: the kit metadata label is absent. -/
  | labelMissing (msg : String)
  /-- `resolve`: empty manifest list, "could not find metadata for kit". -/
  | noMetadataFound (msg : String)
  /-- `TryFrom<EncodedKitMetadata>`: base64 decode failed. -/
  | base64Err (msg : String)
  /-- `TryFrom<EncodedKitMetadata>`: JSON parse failed. -/
  | jsonErr (msg : String)
  /-- `resolve`: "Metadata does not match between images in manifest list". -/
  | metadataMismatch
  /-- `extract`: the architecture string is not a known Docker architecture. -/
  | badArchitecture (s : String)
  /-- `extract`: "could not find image for architecture ... at ...". -/
  | missingArchitecture (arch uri : String)
  /-- A Rust panic (the `platform.as_ref().unwrap()` in `extract`). -/
  | panicked
deriving DecidableEq, Repr

/-- The spec's §7 error classes. -/
inductive ErrClass where
  | reference
  | notFound
  | integrity
  | transport
  | panic
deriving DecidableEq, Repr

/-- Classify an error per spec §7: (a) reference, (b) not-found,
(c) integrity, (d) transport. -/
def errClass : Err → ErrClass
  | .toolErr _ => .transport
  | .noRegistry => .reference
  | .manifestParseErr _ => .integrity
  | .labelMissing _ => .notFound
  | .noMetadataFound _ => .notFound
  | .base64Err _ => .integrity
  | .jsonErr _ => .integrity
  | .metadataMismatch => .integrity
  | .badArchitecture _ => .reference
  | .missingArchitecture _ _ => .notFound
  | .panicked => .panic

/-! ## EncodedKitMetadata -/

/-- The base64-encoded JSON blob from the image config label; `raw` is the
Rust tuple field `.0`.  Equality (the derived `PartialEq`) is equality of
the raw encoded string. -/
structure EncodedKitMetadata where
  raw : String
deriving DecidableEq, Repr

/-- The decode used by resolution: `TryFrom<EncodedKitMetadata> for
ImageMetadata` — base64, then JSON. -/
def decodeImageMetadata (e : EncodedKitMetadata) : Except Err ImageMetadata :=
  match base64Decode e.raw with
  | none => .error (.base64Err "failed to decode kit metadata as base64")
  | some bytes =>
    match imageMetadataFromBytes bytes with
    | none => .error (.jsonErr "failed to parse kit metadata json")
    | some m => .ok m

/-- Plain rendering of a version (Rust `Debug`-level fidelity is not
needed by any claim). -/
def renderSemVer (v : SemVer) : String :=
  toString v.major ++ "." ++ toString v.minor ++ "." ++ toString v.patch ++
    (if v.pre = "" then "" else "-" ++ v.pre) ++
    (if v.build = "" then "" else "+" ++ v.build)

/-- Plain rendering of an image reference. -/
def renderImage (i : Image) : String :=
  i.name ++ "-" ++ renderSemVer i.version ++ "@" ++ i.vendor

/-- Plain rendering of a list of image references. -/
def renderImages : List Image → String
  | [] => ""
  | [i] => renderImage i
  | i :: rest => renderImage i ++ ", " ++ renderImages rest

/-- Plain rendering of decoded metadata. -/
def renderImageMetadata (m : ImageMetadata) : String :=
  m.name ++ " " ++ renderSemVer m.version ++ " sdk: " ++ renderImage m.sdk ++
    " kits: " ++ renderImages m.kits

/-- `debug_image_metadata`: attempt base64 then JSON decoding, `None` on
any failure. -/
def EncodedKitMetadata.debugImageMetadata (e : EncodedKitMetadata) : Option String :=
  ((base64Decode e.raw).bind imageMetadataFromBytes).map fun m =>
    "<ImageMetadata(decoded) [" ++ renderImageMetadata m ++ "]>"

/-- `self.0.replace("\n", "\\n")`. -/
def escapeNewlines (s : String) : String :=
  ⟨s.data.foldr (fun c acc => if c = '\n' then '\\' :: 'n' :: acc else c :: acc) []⟩

/-- `try_debug_image_metadata`: the decoded rendering when decoding
succeeds, otherwise the raw encoded fallback.  Total by construction. -/
def EncodedKitMetadata.tryDebugImageMetadata (e : EncodedKitMetadata) : String :=
  match e.debugImageMetadata with
  | some s => s
  | none => "<ImageMetadata(encoded) [" ++ escapeNewlines e.raw ++ "]>"

/-! ## External collaborators and views

The image tool (`oci_cli_wrapper::ImageTool`) and the archive collaborator
are out-of-scope transports, modelled at their interface (spec §6) as
records of pure functions; each call a resolver method makes is recorded
in an explicit trace.  `ManifestListView` (in `views.rs`, outside the
provided slice) is modelled from the spec — "ordered sequence of manifest
entries, each `{digest, platform: {architecture, …}}`" — with the
platform descriptor optional, as `extract`'s `platform.as_ref().unwrap()`
requires it to be. -/

/-- The architectures the Docker tooling distinguishes here. -/
inductive DockerArchitecture where
  | amd64
  | arm64
deriving DecidableEq, Repr

/-- `DockerArchitecture::try_from(&str)`: accepts the Docker names and the
corresponding Linux machine names. -/
def DockerArchitecture.tryFrom (s : String) : Option DockerArchitecture :=
  if s = "amd64" || s = "x86_64" then some .amd64
  else if s = "arm64" || s = "aarch64" then some .arm64
  else none

/-- `Display` of a Docker architecture. -/
def DockerArchitecture.render : DockerArchitecture → String
  | .amd64 => "amd64"
  | .arm64 => "arm64"

/-- A platform descriptor of a manifest entry. -/
structure Platform where
  architecture : DockerArchitecture
deriving DecidableEq, Repr

/-- One entry of a manifest list. -/
structure ManifestEntry where
  digest : String
  platform : Option Platform
deriving DecidableEq, Repr

/-- The typed view over a decoded manifest list. -/
structure ManifestListView where
  manifests : List ManifestEntry
deriving DecidableEq, Repr

/-- Architecture from its manifest JSON name. -/
def dockerArchFromJson (j : Json) : Option DockerArchitecture :=
  (jsonStr? j).bind fun s =>
    if s = "amd64" then some .amd64
    else if s = "arm64" then some .arm64
    else none

/-- Platform descriptor from JSON (unknown fields ignored). -/
def platformFromJson (j : Json) : Option Platform :=
  (jsonObj? j).bind fun fields =>
    (uniqueField fields "architecture").bind fun archJ =>
      (dockerArchFromJson archJ).map fun arch => ⟨arch⟩

/-- Manifest entry from JSON; a missing `platform` key is `None`, as an
`Option` field is to serde. -/
def manifestEntryFromJson (j : Json) : Option ManifestEntry :=
  (jsonObj? j).bind fun fields =>
    (uniqueField fields "digest").bind fun digestJ =>
      (jsonStr? digestJ).bind fun digest =>
        match fieldsNamed fields "platform" with
        | [] => some ⟨digest, none⟩
        | [pJ] => (platformFromJson pJ).map fun p => ⟨digest, some p⟩
        | _ => none

/-- All-or-nothing traversal of manifest entries. -/
def manifestEntriesFromJson : List Json → Option (List ManifestEntry)
  | [] => some []
  | j :: rest =>
    (manifestEntryFromJson j).bind fun e =>
      (manifestEntriesFromJson rest).map (e :: ·)

/-- `serde_json::from_slice::<ManifestListView>` on raw manifest bytes. -/
def parseManifestList (bs : List Nat) : Option ManifestListView :=
  (asciiChars? bs).bind fun cs =>
    (parseJsonText cs).bind fun j =>
      (jsonObj? j).bind fun fields =>
        (uniqueField fields "manifests").bind fun msJ =>
          (jsonArr? msJ).bind fun items =>
            (manifestEntriesFromJson items).map fun entries => ⟨entries⟩

/-- An image configuration as the image tool returns it; the lock module
only reads the label map. -/
structure OCIConfig where
  labels : List (String × String)
deriving DecidableEq, Repr

/-- Map lookup in the label map. -/
def lookupLabel : List (String × String) → String → Option String
  | [], _ => none
  | (k, v) :: rest, key => if k = key then some v else lookupLabel rest key

/-- The external image tool, as a record of its two operations (spec §6);
a deterministic tool is a pair of pure functions. -/
structure ImageTool where
  get_manifest : String → Except String (List Nat)
  get_config : String → Except String OCIConfig

/-- The external archive collaborator (`OCIArchive`), keyed by registry,
repository and digest. -/
structure ArchiveTool where
  pull_image : String → String → String → Except String Unit
  unpack_layers : String → String → Except String Unit

/-- One external call made by a resolver method, in the order issued. -/
inductive ToolCall where
  | manifestFetch (uri : String)
  | configFetch (uri : String)
  | pullImage (registry repo digest : String)
  | unpackLayers (digest target : String)
deriving DecidableEq, Repr

/-- `true` exactly on config fetches. -/
def ToolCall.isConfigFetch : ToolCall → Bool
  | .configFetch _ => true
  | _ => false

/-- `true` exactly on archive pull/unpack delegations. -/
def ToolCall.isArchiveOp : ToolCall → Bool
  | .pullImage _ _ _ => true
  | .unpackLayers _ _ => true
  | _ => false

/-- The URIs of the manifest fetches in a trace, in order. -/
def manifestFetchUris : List ToolCall → List String
  | [] => []
  | .manifestFetch uri :: rest => uri :: manifestFetchUris rest
  | _ :: rest => manifestFetchUris rest

/-- `EncodedKitMetadata::try_from_image`: one config fetch, then the
fixed label key; absence is the "this image is not a kit" failure. -/
def EncodedKitMetadata.tryFromImage (imageUri : String) (tool : ImageTool) :
    Except Err EncodedKitMetadata × List ToolCall :=
  match tool.get_config imageUri with
  | .error e => (.error (.toolErr e), [.configFetch imageUri])
  | .ok config =>
    match lookupLabel config.labels "dev.bottlerocket.kit.v1" with
    | none =>
      (.error (.labelMissing "no metadata stored on image, this image appears to not be a kit"),
        [.configFetch imageUri])
    | some v => (.ok ⟨v⟩, [.configFetch imageUri])

/-! ## ImageResolver -/

/-- The image reference bound to a project.  Modelled from the spec:
`ProjectImage` and `ValidIdentifier` are outside the provided slice; §3
gives the declared name/version/vendor, the original source URI and the
separate project image URI the resolver queries. -/
structure ImageUri where
  registry : Option String
  repo : String
  tag : String
deriving DecidableEq, Repr

/-- `Display` of an image URI. -/
def ImageUri.render (u : ImageUri) : String :=
  (match u.registry with
   | some r => r ++ "/"
   | none => "") ++ u.repo ++ ":" ++ u.tag

/-- The project-bound image reference. -/
structure ProjectImage where
  name : String
  version : SemVer
  vendor : String
  originalSourceUri : String
  projectImageUri : ImageUri
deriving DecidableEq, Repr

/-- The resolver state: the bound image and the skip flag set for SDKs. -/
structure ImageResolver where
  image : ProjectImage
  skip_metadata_retrieval : Bool
deriving DecidableEq, Repr

/-- `ImageResolver::from_image`. -/
def ImageResolver.from_image (image : ProjectImage) : ImageResolver :=
  ⟨image, false⟩

/-- The `skip_metadata_retrieval()` builder method. -/
def ImageResolver.withSkippedMetadata (r : ImageResolver) : ImageResolver :=
  { r with skip_metadata_retrieval := true }

/-- `ImageResolver::calculate_digest`: fetch the raw manifest-list bytes
for the project image URI and return `base64(SHA-256(bytes))`. -/
def ImageResolver.calculate_digest (r : ImageResolver) (tool : ImageTool) :
    Except Err String × List ToolCall :=
  match tool.get_manifest r.image.projectImageUri.render with
  | .error e => (.error (.toolErr e), [.manifestFetch r.image.projectImageUri.render])
  | .ok bytes =>
    (.ok (base64Encode (sha256Bytes bytes)), [.manifestFetch r.image.projectImageUri.render])

/-- `ImageResolver::get_manifest`: fetch the manifest-list bytes and
deserialize them into the typed view. -/
def ImageResolver.get_manifest (r : ImageResolver) (tool : ImageTool) :
    Except Err ManifestListView × List ToolCall :=
  match tool.get_manifest r.image.projectImageUri.render with
  | .error e => (.error (.toolErr e), [.manifestFetch r.image.projectImageUri.render])
  | .ok bytes =>
    match parseManifestList bytes with
    | none =>
      (.error (.manifestParseErr "failed to deserialize manifest list"),
        [.manifestFetch r.image.projectImageUri.render])
    | some view => (.ok view, [.manifestFetch r.image.projectImageUri.render])

/-- The body of the validation loop: fetch each subsequent entry's encoded
metadata in list order and compare it — with `EncodedKitMetadata`'s derived
`PartialEq`, i.e. on the raw encoded string — against the canonical one.
Lazy like the source stream: a mismatch stops before later fetches. -/
def validateSubsequent (registry repo : String) (tool : ImageTool)
    (canonical : EncodedKitMetadata) :
    List ManifestEntry → Except Err Unit × List ToolCall
  | [] => (.ok (), [])
  | m :: rest =>
    match EncodedKitMetadata.tryFromImage (registry ++ "/" ++ repo ++ "@" ++ m.digest) tool with
    | (.error e, tr) => (.error e, tr)
    | (.ok kit_metadata, tr) =>
      if kit_metadata = canonical then
        ((validateSubsequent registry repo tool canonical rest).1,
          tr ++ (validateSubsequent registry repo tool canonical rest).2)
      else (.error .metadataMismatch, tr)

/-- `ImageResolver::resolve`, with the trace of external calls issued. -/
def ImageResolver.resolve (r : ImageResolver) (tool : ImageTool) :
    Except Err (LockedImage × Option ImageMetadata) × List ToolCall :=
  let uri := r.image.projectImageUri
  match r.get_manifest tool with
  | (.error e, tr1) => (.error e, tr1)
  | (.ok manifest_list, tr1) =>
    match uri.registry with
    | none => (.error .noRegistry, tr1)
    | some registry =>
      match r.calculate_digest tool with
      | (.error e, tr2) => (.error e, tr1 ++ tr2)
      | (.ok digest, tr2) =>
        let locked_image : LockedImage :=
          { name := r.image.name
            version := r.image.version
            vendor := r.image.vendor
            source := r.image.originalSourceUri
            digest := digest }
        if r.skip_metadata_retrieval then
          (.ok (locked_image, none), tr1 ++ tr2)
        else
          match manifest_list.manifests with
          | [] =>
            (.error (.noMetadataFound ("could not find metadata for kit " ++ uri.render)),
              tr1 ++ tr2)
          | first :: rest =>
            match EncodedKitMetadata.tryFromImage
                (registry ++ "/" ++ uri.repo ++ "@" ++ first.digest) tool with
            | (.error e, tr3) => (.error e, tr1 ++ tr2 ++ tr3)
            | (.ok canonical_metadata, tr3) =>
              match validateSubsequent registry uri.repo tool canonical_metadata rest with
              | (.error e, tr4) => (.error e, tr1 ++ tr2 ++ tr3 ++ tr4)
              | (.ok _, tr4) =>
                match decodeImageMetadata canonical_metadata with
                | .error e => (.error e, tr1 ++ tr2 ++ tr3 ++ tr4)
                | .ok metadata => (.ok (locked_image, some metadata), tr1 ++ tr2 ++ tr3 ++ tr4)

/-- The architecture search in `extract`:
`manifests.iter().find(|x| x.platform.as_ref().unwrap().architecture == docker_arch)`.
The `unwrap` panics at the first entry reached whose platform descriptor
is absent; the panic is modelled as `Except.error ()`. -/
def findManifestForArch : List ManifestEntry → DockerArchitecture →
    Except Unit (Option ManifestEntry)
  | [], _ => .ok none
  | e :: rest, arch =>
    match e.platform with
    | none => .error ()
    | some p =>
      if p.architecture = arch then .ok (some e)
      else findManifestForArch rest arch

/-- `ImageResolver::extract`: manifest fetch, architecture selection, then
delegation to the archive collaborator.  Directory creation is local
filesystem work, not an external call, and is not traced. -/
def ImageResolver.extract (r : ImageResolver) (tool : ImageTool) (archive : ArchiveTool)
    (path : String) (arch : String) : Except Err Unit × List ToolCall :=
  let uri := r.image.projectImageUri
  let target_path := path ++ "/" ++ r.image.vendor ++ "/" ++ r.image.name ++ "/" ++ arch
  match r.get_manifest tool with
  | (.error e, tr1) => (.error e, tr1)
  | (.ok manifest_list, tr1) =>
    match DockerArchitecture.tryFrom arch with
    | none => (.error (.badArchitecture arch), tr1)
    | some docker_arch =>
      match findManifestForArch manifest_list.manifests docker_arch with
      | .error _ => (.error .panicked, tr1)
      | .ok none =>
        (.error (.missingArchitecture docker_arch.render uri.render), tr1)
      | .ok (some manifest) =>
        match uri.registry with
        | none => (.error .noRegistry, tr1)
        | some registry =>
          match archive.pull_image registry uri.repo manifest.digest with
          | .error e =>
            (.error (.toolErr e), tr1 ++ [.pullImage registry uri.repo manifest.digest])
          | .ok _ =>
            match archive.unpack_layers manifest.digest target_path with
            | .error e =>
              (.error (.toolErr e),
                tr1 ++ [.pullImage registry uri.repo manifest.digest,
                  .unpackLayers manifest.digest target_path])
            | .ok _ =>
              (.ok (),
                tr1 ++ [.pullImage registry uri.repo manifest.digest,
                  .unpackLayers manifest.digest target_path])

/-! ## Helpers over results and traces -/

/-- Success test on `Except`. -/
def isOkE {ε α : Type} : Except ε α → Bool
  | .ok _ => true
  | .error _ => false

/-- The metadata component of a successful resolution, `none` otherwise. -/
def metadataOfResult : Except Err (LockedImage × Option ImageMetadata) → Option ImageMetadata
  | .ok (_, md) => md
  | .error _ => none

/-- `true` when a successful resolution's digest is the base64-encoded
SHA-256 of the given bytes (vacuously true on failure). -/
def digestAddressesBytes (res : Except Err (LockedImage × Option ImageMetadata))
    (bytes : List Nat) : Bool :=
  match res with
  | .ok (locked, _) => locked.digest == base64Encode (sha256Bytes bytes)
  | .error _ => true

/-! ## Concrete fixtures

A two-architecture kit at `reg/repo:v2` with per-entry image configs, in
several label variants, used to run the embedding on closed inputs. -/

/-- Byte view of an ASCII string. -/
def asciiBytes (s : String) : List Nat := s.data.map Char.toNat

/-- The fixed, well-known label key. -/
def kitLabelKey : String := "dev.bottlerocket.kit.v1"

/-- A manifest list with an amd64 and an arm64 entry. -/
def sampleManifestJson : String :=
  "\x7b\"manifests\":[\x7b\"digest\":\"d1\",\"platform\":\x7b\"architecture\":\"amd64\"\x7d\x7d,\x7b\"digest\":\"d2\",\"platform\":\x7b\"architecture\":\"arm64\"\x7d\x7d]\x7d"

/-- Raw bytes of the sample manifest list. -/
def sampleManifestBytes : List Nat := asciiBytes sampleManifestJson

/-- The typed view the sample manifest list parses to. -/
def sampleManifestView : ManifestListView :=
  ⟨[⟨"d1", some ⟨.amd64⟩⟩, ⟨"d2", some ⟨.arm64⟩⟩]⟩

/-- base64 of
`{"name":"core-kit","version":"2.0.0","sdk":{"name":"my-sdk","version":"1.0.0","vendor":"vend"},"kit":[]}`. -/
def metaEncA : String :=
  "eyJuYW1lIjoiY29yZS1raXQiLCJ2ZXJzaW9uIjoiMi4wLjAiLCJzZGsiOnsibmFtZSI6Im15LXNkayIsInZlcnNpb24iOiIxLjAuMCIsInZlbmRvciI6InZlbmQifSwia2l0IjpbXX0="

/-- base64 of the same JSON with one extra space before the closing
brace: a different encoded string decoding to the same metadata. -/
def metaEncB : String :=
  "eyJuYW1lIjoiY29yZS1raXQiLCJ2ZXJzaW9uIjoiMi4wLjAiLCJzZGsiOnsibmFtZSI6Im15LXNkayIsInZlcnNpb24iOiIxLjAuMCIsInZlbmRvciI6InZlbmQifSwia2l0IjpbXSB9"

/-- The project image URI the resolver queries. -/
def sampleUri : ImageUri := ⟨some "reg", "repo", "v2"⟩

/-- The declared project image. -/
def sampleProjectImage : ProjectImage :=
  ⟨"core-kit", ⟨2, 0, 0, "", ""⟩, "vend", "reg/repo", sampleUri⟩

/-- A resolver over the sample image, metadata retrieval on. -/
def sampleResolver : ImageResolver := ImageResolver.from_image sampleProjectImage

/-- The same resolver with metadata retrieval skipped (the SDK path). -/
def skipResolver : ImageResolver := sampleResolver.withSkippedMetadata

/-- An image tool serving the sample manifest and per-entry configs with
the given two label values. -/
def twoLabelTool (l1 l2 : String) : ImageTool :=
  ⟨fun _ => .ok sampleManifestBytes,
   fun uri =>
     if uri = "reg/repo@d1" then .ok ⟨[(kitLabelKey, l1)]⟩
     else if uri = "reg/repo@d2" then .ok ⟨[(kitLabelKey, l2)]⟩
     else .error "unknown image"⟩

/-- Both entries carry semantically equal but textually different
encodings. -/
def mismatchTool : ImageTool := twoLabelTool metaEncA metaEncB

/-- The first entry's label is junk (neither base64 nor JSON), the second
differs from it textually. -/
def junkTool : ImageTool := twoLabelTool "###" "@@@@"

/-- Both entries carry the identical junk label. -/
def junkAgreeTool : ImageTool := twoLabelTool "###" "###"

/-- Both entries carry the identical valid label. -/
def agreeTool : ImageTool := twoLabelTool metaEncA metaEncA

/-- A manifest list with a single arm64 entry. -/
def armOnlyManifestJson : String :=
  "\x7b\"manifests\":[\x7b\"digest\":\"d2\",\"platform\":\x7b\"architecture\":\"arm64\"\x7d\x7d]\x7d"

/-- An image tool serving only the arm64 manifest, no configs. -/
def armOnlyTool : ImageTool :=
  ⟨fun _ => .ok (asciiBytes armOnlyManifestJson), fun _ => .error "no config"⟩

/-- An image configuration with no labels at all. -/
def toolNoLabel : ImageTool :=
  ⟨fun _ => .error "no manifest", fun _ => .ok ⟨[]⟩⟩

/-- An archive collaborator that always succeeds. -/
def okArchive : ArchiveTool := ⟨fun _ _ _ => .ok (), fun _ _ => .ok ()⟩

/-- A manifest entry with no platform descriptor. -/
def entryNoPlatform : ManifestEntry := ⟨"d9", none⟩

/-- Two lockfile records agreeing on source and digest but not on name. -/
def lockedA : LockedImage := ⟨"a-kit", ⟨1, 0, 0, "", ""⟩, "v", "srcuri", "dig"⟩

/-- See `lockedA`. -/
def lockedB : LockedImage := ⟨"b-kit", ⟨1, 0, 0, "", ""⟩, "v", "srcuri", "dig"⟩

/-! ## Structural lemmas about the embedding -/

theorem get_manifest_trace (r : ImageResolver) (tool : ImageTool) :
    (r.get_manifest tool).2 = [.manifestFetch r.image.projectImageUri.render] := by
  unfold ImageResolver.get_manifest
  split
  · rfl
  · split <;> rfl

theorem calculate_digest_trace (r : ImageResolver) (tool : ImageTool) :
    (r.calculate_digest tool).2 = [.manifestFetch r.image.projectImageUri.render] := by
  unfold ImageResolver.calculate_digest
  split <;> rfl

theorem tryFromImage_trace (uri : String) (tool : ImageTool) :
    (EncodedKitMetadata.tryFromImage uri tool).2 = [.configFetch uri] := by
  unfold EncodedKitMetadata.tryFromImage
  split
  · rfl
  · split <;> rfl

theorem calculate_digest_of_bytes (r : ImageResolver) (tool : ImageTool) (bytes : List Nat)
    (h : tool.get_manifest r.image.projectImageUri.render = .ok bytes) :
    (r.calculate_digest tool).1 = .ok (base64Encode (sha256Bytes bytes)) := by
  unfold ImageResolver.calculate_digest
  rw [h]

/-- Every successful resolution's digest is the one `calculate_digest`
produced. -/
theorem resolve_ok_digest (r : ImageResolver) (tool : ImageTool) (locked : LockedImage)
    (md : Option ImageMetadata) (h : (r.resolve tool).1 = .ok (locked, md)) :
    (r.calculate_digest tool).1 = .ok locked.digest := by
  unfold ImageResolver.resolve at h
  dsimp only at h
  rcases hg : r.get_manifest tool with ⟨gres, gtr⟩
  rw [hg] at h
  cases gres with
  | error e => simp at h
  | ok manifest_list =>
    dsimp only at h
    cases hreg : r.image.projectImageUri.registry with
    | none => rw [hreg] at h; simp at h
    | some registry =>
      rw [hreg] at h
      dsimp only at h
      rcases hd : r.calculate_digest tool with ⟨dres, dtr⟩
      rw [hd] at h
      cases dres with
      | error e => simp at h
      | ok digest =>
        dsimp only at h
        by_cases hskip : r.skip_metadata_retrieval = true
        · rw [if_pos hskip] at h
          simp at h
          rw [← h.1]
        · rw [if_neg hskip] at h
          cases hml : manifest_list.manifests with
          | nil => rw [hml] at h; simp at h
          | cons first rest =>
            rw [hml] at h
            dsimp only at h
            rcases ht : EncodedKitMetadata.tryFromImage
                (registry ++ "/" ++ r.image.projectImageUri.repo ++ "@" ++ first.digest) tool with
              ⟨tres, ttr⟩
            rw [ht] at h
            cases tres with
            | error e => simp at h
            | ok canonical_metadata =>
              dsimp only at h
              rcases hv : validateSubsequent registry r.image.projectImageUri.repo tool
                  canonical_metadata rest with ⟨vres, vtr⟩
              rw [hv] at h
              cases vres with
              | error e => simp at h
              | ok u =>
                dsimp only at h
                cases hdec : decodeImageMetadata canonical_metadata with
                | error e => rw [hdec] at h; simp at h
                | ok metadata =>
                  rw [hdec] at h
                  simp at h
                  rw [← h.1]

/-- The validation loop succeeds exactly when every subsequent entry's
fetch yields an `EncodedKitMetadata` equal — on the raw encoded string,
the derived `PartialEq` — to the canonical one. -/
theorem validateSubsequent_ok_iff (registry repo : String) (tool : ImageTool)
    (canonical : EncodedKitMetadata) (entries : List ManifestEntry) :
    (validateSubsequent registry repo tool canonical entries).1 = .ok () ↔
      ∀ e ∈ entries,
        (EncodedKitMetadata.tryFromImage (registry ++ "/" ++ repo ++ "@" ++ e.digest) tool).1 =
          .ok canonical := by
  induction entries with
  | nil => simp [validateSubsequent]
  | cons m rest ih =>
    simp only [validateSubsequent]
    rcases ht : EncodedKitMetadata.tryFromImage (registry ++ "/" ++ repo ++ "@" ++ m.digest) tool
      with ⟨tres, ttr⟩
    cases tres with
    | error e =>
      constructor
      · intro h; simp at h
      · intro h
        have := h m (by simp)
        rw [ht] at this
        simp at this
    | ok km =>
      dsimp only
      by_cases hk : km = canonical
      · subst hk
        simp only [if_pos rfl]
        constructor
        · intro h
          intro e he
          rcases List.mem_cons.mp he with rfl | he'
          · rw [ht]
          · exact (ih.mp h) e he'
        · intro h
          exact ih.mpr fun e he => h e (List.mem_cons_of_mem _ he)
      · rw [if_neg hk]
        constructor
        · intro h; simp at h
        · intro h
          have := h m (by simp)
          rw [ht] at this
          simp at this
          exact absurd this hk

/-- The validation loop issues only config fetches. -/
theorem validateSubsequent_no_manifestFetch (registry repo : String) (tool : ImageTool)
    (canonical : EncodedKitMetadata) (entries : List ManifestEntry) :
    manifestFetchUris (validateSubsequent registry repo tool canonical entries).2 = [] := by
  induction entries with
  | nil => rfl
  | cons m rest ih =>
    simp only [validateSubsequent]
    rcases ht : EncodedKitMetadata.tryFromImage (registry ++ "/" ++ repo ++ "@" ++ m.digest) tool
      with ⟨tres, ttr⟩
    have httr : ttr = [.configFetch (registry ++ "/" ++ repo ++ "@" ++ m.digest)] := by
      have := tryFromImage_trace (registry ++ "/" ++ repo ++ "@" ++ m.digest) tool
      rw [ht] at this
      exact this
    cases tres with
    | error e => subst httr; rfl
    | ok km =>
      dsimp only
      by_cases hk : km = canonical
      · subst hk
        simp only [if_pos rfl]
        subst httr
        simpa [manifestFetchUris] using ih
      · rw [if_neg hk]
        subst httr
        rfl

/-- Likewise, the config fetch of `try_from_image` is not a manifest
fetch. -/
theorem tryFromImage_no_manifestFetch (uri : String) (tool : ImageTool) :
    manifestFetchUris (EncodedKitMetadata.tryFromImage uri tool).2 = [] := by
  rw [tryFromImage_trace]
  rfl

/-- `manifestFetchUris` distributes over concatenation. -/
theorem manifestFetchUris_append (xs ys : List ToolCall) :
    manifestFetchUris (xs ++ ys) = manifestFetchUris xs ++ manifestFetchUris ys := by
  induction xs with
  | nil => rfl
  | cons c rest ih => cases c <;> simp [manifestFetchUris, ih]

/-- When every entry carries a platform descriptor the architecture
search cannot panic. -/
theorem findManifestForArch_ok (entries : List ManifestEntry) (da : DockerArchitecture)
    (h : ∀ e ∈ entries, e.platform.isSome = true) :
    isOkE (findManifestForArch entries da) = true := by
  induction entries with
  | nil => rfl
  | cons e rest ih =>
    have he := h e (by simp)
    cases hp : e.platform with
    | none => rw [hp] at he; cases he
    | some p =>
      simp only [findManifestForArch, hp]
      by_cases harch : p.architecture = da
      · rw [if_pos harch]; rfl
      · rw [if_neg harch]
        exact ih fun e' he' => h e' (List.mem_cons_of_mem _ he')

/-- When every entry carries a platform descriptor and none matches, the
search completes with no selection. -/
theorem findManifestForArch_none (entries : List ManifestEntry) (da : DockerArchitecture)
    (h : ∀ e ∈ entries, ∃ p, e.platform = some p ∧ p.architecture ≠ da) :
    findManifestForArch entries da = .ok none := by
  induction entries with
  | nil => rfl
  | cons e rest ih =>
    rcases h e (by simp) with ⟨p, hp, hne⟩
    simp only [findManifestForArch, hp]
    rw [if_neg hne]
    exact ih fun e' he' => h e' (List.mem_cons_of_mem _ he')

/-- In the metadata phase, `resolve`'s result is: any validation-loop
error first, then — only after the loop — the decode of the canonical
metadata. -/
theorem resolve_metadata_phase (r : ImageResolver) (tool : ImageTool)
    (mlv : ManifestListView) (registry digest : String)
    (first : ManifestEntry) (rest : List ManifestEntry) (canonical : EncodedKitMetadata)
    (h1 : (r.get_manifest tool).1 = .ok mlv)
    (h2 : r.image.projectImageUri.registry = some registry)
    (h3 : (r.calculate_digest tool).1 = .ok digest)
    (h4 : r.skip_metadata_retrieval = false)
    (h5 : mlv.manifests = first :: rest)
    (h6 : (EncodedKitMetadata.tryFromImage
        (registry ++ "/" ++ r.image.projectImageUri.repo ++ "@" ++ first.digest) tool).1 =
      .ok canonical) :
    (r.resolve tool).1 =
      match (validateSubsequent registry r.image.projectImageUri.repo tool canonical rest).1 with
      | .error e => .error e
      | .ok _ =>
        match decodeImageMetadata canonical with
        | .error e => .error e
        | .ok metadata =>
          .ok ({ name := r.image.name, version := r.image.version, vendor := r.image.vendor,
                 source := r.image.originalSourceUri, digest := digest }, some metadata) := by
  unfold ImageResolver.resolve
  dsimp only
  rcases hg : r.get_manifest tool with ⟨gres, gtr⟩
  rw [hg] at h1
  cases gres with
  | error e => simp at h1
  | ok manifest_list =>
    simp at h1
    subst h1
    dsimp only
    rw [h2]
    dsimp only
    rcases hd : r.calculate_digest tool with ⟨dres, dtr⟩
    rw [hd] at h3
    cases dres with
    | error e => simp at h3
    | ok digest0 =>
      simp at h3
      subst h3
      dsimp only
      rw [h4]
      simp only [Bool.false_eq_true, if_false]
      rw [h5]
      dsimp only
      rcases ht : EncodedKitMetadata.tryFromImage
          (registry ++ "/" ++ r.image.projectImageUri.repo ++ "@" ++ first.digest) tool with
        ⟨tres, ttr⟩
      rw [ht] at h6
      cases tres with
      | error e => simp at h6
      | ok canonical0 =>
        rw [show canonical = canonical0 from by simpa using h6.symm]
        dsimp only
        rcases hv : validateSubsequent registry r.image.projectImageUri.repo tool canonical0 rest
          with ⟨vres, vtr⟩
        cases vres with
        | error e => rfl
        | ok u => cases u; cases hdec : decodeImageMetadata canonical0 <;> rfl

/-- When every subsequent fetch succeeds, the validation loop either
passes or fails with the mismatch error. -/
theorem validateSubsequent_ok_or_mismatch (registry repo : String) (tool : ImageTool)
    (canonical : EncodedKitMetadata) (entries : List ManifestEntry)
    (h : ∀ e ∈ entries, ∃ km,
      (EncodedKitMetadata.tryFromImage (registry ++ "/" ++ repo ++ "@" ++ e.digest) tool).1 =
        .ok km) :
    (validateSubsequent registry repo tool canonical entries).1 = .ok () ∨
      (validateSubsequent registry repo tool canonical entries).1 = .error .metadataMismatch := by
  induction entries with
  | nil => left; rfl
  | cons m rest ih =>
    simp only [validateSubsequent]
    rcases h m (by simp) with ⟨km, hkm⟩
    rcases ht : EncodedKitMetadata.tryFromImage (registry ++ "/" ++ repo ++ "@" ++ m.digest) tool
      with ⟨tres, ttr⟩
    rw [ht] at hkm
    cases tres with
    | error e => simp at hkm
    | ok km0 =>
      dsimp only
      by_cases hk : km0 = canonical
      · rw [if_pos hk]
        exact ih fun e he => h e (List.mem_cons_of_mem _ he)
      · rw [if_neg hk]
        right
        rfl

/-- Strict decoding never produces the cross-architecture mismatch
error. -/
theorem decodeImageMetadata_not_mismatch (e : EncodedKitMetadata) :
    decodeImageMetadata e ≠ .error .metadataMismatch := by
  unfold decodeImageMetadata
  split
  · simp
  · split <;> simp

/-! ## Claims -/

/-- C1 (corrected).  During cross-architecture validation, subsequent
entries are compared against the canonical metadata on the **raw encoded
string** (the derived `PartialEq` of `EncodedKitMetadata`), not by
decoded value: given that the manifest fetch, registry, digest and
canonical fetch succeed, and every subsequent fetch succeeds, `resolve`
avoids the mismatch failure **iff** every subsequent entry's encoded
metadata equals the canonical one as a raw string.  Decoding plays no
role in the comparison (see the counterexample for two
decoded-equal encodings that fail validation). -/
theorem C1_validation_by_raw_encoding (r : ImageResolver) (tool : ImageTool)
    (mlv : ManifestListView) (registry digest : String)
    (first : ManifestEntry) (rest : List ManifestEntry) (canonical : EncodedKitMetadata)
    (h1 : (r.get_manifest tool).1 = .ok mlv)
    (h2 : r.image.projectImageUri.registry = some registry)
    (h3 : (r.calculate_digest tool).1 = .ok digest)
    (h4 : r.skip_metadata_retrieval = false)
    (h5 : mlv.manifests = first :: rest)
    (h6 : (EncodedKitMetadata.tryFromImage
        (registry ++ "/" ++ r.image.projectImageUri.repo ++ "@" ++ first.digest) tool).1 =
      .ok canonical)
    (h7 : ∀ e ∈ rest, ∃ km,
      (EncodedKitMetadata.tryFromImage
        (registry ++ "/" ++ r.image.projectImageUri.repo ++ "@" ++ e.digest) tool).1 = .ok km) :
    (r.resolve tool).1 ≠ .error .metadataMismatch ↔
      ∀ e ∈ rest,
        (EncodedKitMetadata.tryFromImage
          (registry ++ "/" ++ r.image.projectImageUri.repo ++ "@" ++ e.digest) tool).1 =
          .ok canonical := by
  have hphase := resolve_metadata_phase r tool mlv registry digest first rest canonical
    h1 h2 h3 h4 h5 h6
  rw [hphase]
  constructor
  · intro hne
    rcases validateSubsequent_ok_or_mismatch registry r.image.projectImageUri.repo tool
        canonical rest h7 with hok | hmm
    · exact (validateSubsequent_ok_iff registry r.image.projectImageUri.repo tool
        canonical rest).mp hok
    · rw [hmm] at hne
      simp at hne
  · intro hall
    rw [(validateSubsequent_ok_iff registry r.image.projectImageUri.repo tool
      canonical rest).mpr hall]
    cases hdec : decodeImageMetadata canonical with
    | error e =>
      have := decodeImageMetadata_not_mismatch canonical
      rw [hdec] at this
      simpa using this
    | ok metadata => simp

/-- C1 witness: with both entries carrying the identical valid encoding,
validation passes and `resolve` does not fail with the mismatch error. -/
theorem C1_validation_by_raw_encoding_witness :
    (sampleResolver.resolve agreeTool).1 ≠ .error .metadataMismatch :=
  (C1_validation_by_raw_encoding sampleResolver agreeTool sampleManifestView "reg"
    (base64Encode (sha256Bytes sampleManifestBytes)) ⟨"d1", some ⟨.amd64⟩⟩
    [⟨"d2", some ⟨.arm64⟩⟩] ⟨metaEncA⟩ (by decide) rfl (by decide) rfl rfl (by decide)
    (by intro e he; simp at he; subst he; exact ⟨⟨metaEncA⟩, by decide⟩)).mpr (by decide)

/-- C1 counterexample: two encoded metadata strings that decode to equal
`ImageMetadata` values (the underlying JSON differs by one space) but
differ as raw strings; as claimed, the pair decodes equal, yet `resolve`
fails the cross-architecture validation with the mismatch error. -/
theorem C1_counterexample :
    decodeImageMetadata ⟨metaEncA⟩ = decodeImageMetadata ⟨metaEncB⟩ ∧
    isOkE (decodeImageMetadata ⟨metaEncA⟩) = true ∧
    metaEncA ≠ metaEncB ∧
    (sampleResolver.resolve mismatchTool).1 = .error .metadataMismatch := by
  refine ⟨by decide, by decide, by decide, by decide⟩

/-- C2 (corrected).  Equality of `LockedImage` is determined solely by
`(source, digest)` — that half of the claim holds — and comparison-equal
values are equal under `==`; but the derived ordering is lexicographic
over all five fields starting with `name`, so ordering **does** depend on
name/version/vendor (see the counterexample). -/
theorem C2_identity (a b : LockedImage) :
    (lockedImageEq a b = true ↔ (a.source = b.source ∧ a.digest = b.digest)) ∧
    (lockedImageCmp a b = .eq → lockedImageEq a b = true) := by
  refine ⟨lockedImageEq_iff, fun h => ?_⟩
  rcases lockedImageCmp_eq_then h with ⟨hs, hd⟩
  exact lockedImageEq_iff.mpr ⟨strCmp_eq_iff.mp hs, strCmp_eq_iff.mp hd⟩

/-- C2 witness: the identity equivalence applied at a concrete pair. -/
theorem C2_identity_witness : lockedImageEq lockedA lockedA = true :=
  (C2_identity lockedA lockedA).2 (by decide)

/-- C2 counterexample: two locked images with identical source and digest
but different names are equal under the hand-written `PartialEq`, yet the
derived lexicographic comparison does not consider them equal — ordering
depends on `name`, contradicting the claim. -/
theorem C2_counterexample :
    lockedImageEq lockedA lockedB = true ∧ lockedImageCmp lockedA lockedB ≠ .eq := by
  refine ⟨by decide, by decide⟩

/-- C3 (corrected).  The first successfully fetched entry does become the
canonical metadata, but it is **not** decoded immediately: the decode
happens only after every subsequent entry has been fetched and compared
on the raw encoded string.  A decode failure of the canonical metadata
surfaces only when the validation loop passes; an error in the loop
(fetch failure or raw mismatch) is reported instead. -/
theorem C3_decode_after_validation (r : ImageResolver) (tool : ImageTool)
    (mlv : ManifestListView) (registry digest : String)
    (first : ManifestEntry) (rest : List ManifestEntry) (canonical : EncodedKitMetadata)
    (h1 : (r.get_manifest tool).1 = .ok mlv)
    (h2 : r.image.projectImageUri.registry = some registry)
    (h3 : (r.calculate_digest tool).1 = .ok digest)
    (h4 : r.skip_metadata_retrieval = false)
    (h5 : mlv.manifests = first :: rest)
    (h6 : (EncodedKitMetadata.tryFromImage
        (registry ++ "/" ++ r.image.projectImageUri.repo ++ "@" ++ first.digest) tool).1 =
      .ok canonical) :
    ((validateSubsequent registry r.image.projectImageUri.repo tool canonical rest).1 = .ok () →
      ∀ e', decodeImageMetadata canonical = .error e' → (r.resolve tool).1 = .error e') ∧
    (∀ e', (validateSubsequent registry r.image.projectImageUri.repo tool canonical rest).1 =
        .error e' → (r.resolve tool).1 = .error e') := by
  have hphase := resolve_metadata_phase r tool mlv registry digest first rest canonical
    h1 h2 h3 h4 h5 h6
  constructor
  · intro hval e' hdec
    rw [hphase, hval, hdec]
  · intro e' hval
    rw [hphase, hval]

/-- C3 witness: with both entries carrying the identical junk label,
validation passes and the (now fatal) decode failure of the canonical
metadata is what `resolve` reports. -/
theorem C3_decode_after_validation_witness :
    (sampleResolver.resolve junkAgreeTool).1 =
      .error (.base64Err "failed to decode kit metadata as base64") :=
  (C3_decode_after_validation sampleResolver junkAgreeTool sampleManifestView "reg"
    (base64Encode (sha256Bytes sampleManifestBytes)) ⟨"d1", some ⟨.amd64⟩⟩
    [⟨"d2", some ⟨.arm64⟩⟩] ⟨"###"⟩ (by decide) rfl (by decide) rfl rfl (by decide)).1
    (by decide) _ (by decide)

/-- C3 counterexample: the first entry's metadata (`"###"`) fails to
decode, and a later entry's raw metadata differs; `resolve` reports the
mismatch error from the later entry, not the decode failure the claim
requires. -/
theorem C3_counterexample :
    isOkE (decodeImageMetadata ⟨"###"⟩) = false ∧
    (sampleResolver.resolve junkTool).1 = .error .metadataMismatch ∧
    Err.metadataMismatch ≠ .base64Err "failed to decode kit metadata as base64" := by
  refine ⟨by decide, by decide, by decide⟩

/-- The digest of the sample manifest bytes. -/
def sampleDigest : String := "wyPzp0STqWKWdkcrU16bkl5YD59hHvvL2Au4WS9XQSw="

/-- The lockfile record the skip path produces for the sample image. -/
def lockedSkipSample : LockedImage :=
  ⟨"core-kit", ⟨2, 0, 0, "", ""⟩, "vend", "reg/repo", sampleDigest⟩

/-- C4 (confirmed).  Whatever bytes the image tool serves for the project
image URI, a successful resolution's locked digest is exactly the base64
encoding of their SHA-256; and any other tool serving the same bytes
yields the same digest string — the digest is a pure function of the raw
manifest-list payload. -/
theorem C4_digest_formula (r : ImageResolver) (tool : ImageTool) (bytes : List Nat)
    (locked : LockedImage) (md : Option ImageMetadata)
    (h1 : tool.get_manifest r.image.projectImageUri.render = .ok bytes)
    (h2 : (r.resolve tool).1 = .ok (locked, md)) :
    locked.digest = base64Encode (sha256Bytes bytes) ∧
    ∀ (tool2 : ImageTool) (locked2 : LockedImage) (md2 : Option ImageMetadata),
      tool2.get_manifest r.image.projectImageUri.render = .ok bytes →
      (r.resolve tool2).1 = .ok (locked2, md2) → locked2.digest = locked.digest := by
  have key : ∀ (t : ImageTool) (l : LockedImage) (m : Option ImageMetadata),
      t.get_manifest r.image.projectImageUri.render = .ok bytes →
      (r.resolve t).1 = .ok (l, m) → l.digest = base64Encode (sha256Bytes bytes) := by
    intro t l m ht hres
    have hd := resolve_ok_digest r t l m hres
    have hcd := calculate_digest_of_bytes r t bytes ht
    rw [hd] at hcd
    exact Except.ok.inj hcd
  exact ⟨key tool locked md h1 h2, fun t2 l2 m2 ht2 hr2 =>
    (key t2 l2 m2 ht2 hr2).trans (key tool locked md h1 h2).symm⟩

/-- C4 witness: the skip-path resolution of the sample image produces
exactly `base64(SHA-256(manifest bytes))`. -/
theorem C4_digest_formula_witness :
    lockedSkipSample.digest = base64Encode (sha256Bytes sampleManifestBytes) :=
  (C4_digest_formula skipResolver mismatchTool sampleManifestBytes lockedSkipSample none rfl
    (by decide)).1

/-- C5 (confirmed).  With the skip flag set, `resolve` issues no config
fetch through the image tool (its trace holds none) and the metadata
component of its result is always `none`. -/
theorem C5_skip_no_config_fetch (r : ImageResolver) (tool : ImageTool)
    (h : r.skip_metadata_retrieval = true) :
    (r.resolve tool).2.any ToolCall.isConfigFetch = false ∧
    metadataOfResult (r.resolve tool).1 = none := by
  unfold ImageResolver.resolve
  dsimp only
  rcases hg : r.get_manifest tool with ⟨gres, gtr⟩
  have hgtr : gtr = [.manifestFetch r.image.projectImageUri.render] := by
    have := get_manifest_trace r tool
    rw [hg] at this
    exact this
  cases gres with
  | error e => subst hgtr; exact ⟨rfl, rfl⟩
  | ok manifest_list =>
    dsimp only
    cases hreg : r.image.projectImageUri.registry with
    | none => subst hgtr; exact ⟨rfl, rfl⟩
    | some registry =>
      dsimp only
      rcases hd : r.calculate_digest tool with ⟨dres, dtr⟩
      have hdtr : dtr = [.manifestFetch r.image.projectImageUri.render] := by
        have := calculate_digest_trace r tool
        rw [hd] at this
        exact this
      cases dres with
      | error e => subst hgtr; subst hdtr; exact ⟨rfl, rfl⟩
      | ok digest =>
        dsimp only
        rw [if_pos h]
        subst hgtr; subst hdtr
        exact ⟨rfl, rfl⟩

/-- C5 witness: the skip resolver's trace on the sample tool has no
config fetch. -/
theorem C5_skip_no_config_fetch_witness :
    (skipResolver.resolve mismatchTool).2.any ToolCall.isConfigFetch = false :=
  (C5_skip_no_config_fetch skipResolver mismatchTool rfl).1

/-- C6 (confirmed).  Given a configuration the image tool returns,
`try_from_image` reads the fixed label key after exactly one external
read; absence of the label is the descriptive "not a kit" failure, a
not-found-class error distinct from the integrity class the decode
failures belong to; presence yields the raw label value. -/
theorem C6_label_signaling (uri : String) (tool : ImageTool) (config : OCIConfig)
    (h : tool.get_config uri = .ok config) :
    (EncodedKitMetadata.tryFromImage uri tool).1 =
      (match lookupLabel config.labels "dev.bottlerocket.kit.v1" with
       | none => .error (.labelMissing
          "no metadata stored on image, this image appears to not be a kit")
       | some v => .ok ⟨v⟩) ∧
    (EncodedKitMetadata.tryFromImage uri tool).2 = [.configFetch uri] ∧
    errClass (.labelMissing
      "no metadata stored on image, this image appears to not be a kit") = .notFound ∧
    (∀ s, errClass (.base64Err s) = .integrity ∧ errClass (.jsonErr s) = .integrity) ∧
    ErrClass.notFound ≠ ErrClass.integrity := by
  refine ⟨?_, tryFromImage_trace uri tool, rfl, fun s => ⟨rfl, rfl⟩, by decide⟩
  unfold EncodedKitMetadata.tryFromImage
  rw [h]
  dsimp only
  cases lookupLabel config.labels "dev.bottlerocket.kit.v1" <;> rfl

/-- C6 witness: a configuration with no labels produces the "not a kit"
failure. -/
theorem C6_label_signaling_witness :
    (EncodedKitMetadata.tryFromImage "any-uri" toolNoLabel).1 =
      .error (.labelMissing
        "no metadata stored on image, this image appears to not be a kit") :=
  (C6_label_signaling "any-uri" toolNoLabel ⟨[]⟩ rfl).1

/-- C7 (confirmed).  On any input whose base64 or JSON decoding fails,
`debug_image_metadata` returns nothing and `try_debug_image_metadata`
returns the raw encoded fallback rendering — it is total and never
reaches a failure state. -/
theorem C7_debug_total_fallback (e : EncodedKitMetadata)
    (h : base64Decode e.raw = none ∨ (base64Decode e.raw).bind imageMetadataFromBytes = none) :
    e.debugImageMetadata = none ∧
    e.tryDebugImageMetadata = "<ImageMetadata(encoded) [" ++ escapeNewlines e.raw ++ "]>" := by
  have hb : (base64Decode e.raw).bind imageMetadataFromBytes = none := by
    rcases h with h | h
    · rw [h]; rfl
    · exact h
  have hd : e.debugImageMetadata = none := by
    unfold EncodedKitMetadata.debugImageMetadata
    rw [hb]
    rfl
  refine ⟨hd, ?_⟩
  unfold EncodedKitMetadata.tryDebugImageMetadata
  rw [hd]

/-- C7 witness: the repository's own junk test input falls back to the
raw rendering. -/
theorem C7_debug_total_fallback_witness :
    EncodedKitMetadata.tryDebugImageMetadata ⟨"abcdefghijklmnophello"⟩ =
      "<ImageMetadata(encoded) [abcdefghijklmnophello]>" :=
  (C7_debug_total_fallback ⟨"abcdefghijklmnophello"⟩ (Or.inl (by decide))).2

/-- C8 (confirmed).  When the fetched manifest list has no entry for the
requested architecture (all entries carry platform descriptors of other
architectures), `extract` fails with the error naming that architecture
and the image URI, and delegates no pull or unpack to the archive
collaborator. -/
theorem C8_missing_architecture (r : ImageResolver) (tool : ImageTool) (archive : ArchiveTool)
    (path arch : String) (mlv : ManifestListView) (da : DockerArchitecture)
    (h1 : (r.get_manifest tool).1 = .ok mlv)
    (h2 : DockerArchitecture.tryFrom arch = some da)
    (h3 : ∀ e ∈ mlv.manifests, ∃ p, e.platform = some p ∧ p.architecture ≠ da) :
    (r.extract tool archive path arch).1 =
      .error (.missingArchitecture da.render r.image.projectImageUri.render) ∧
    (r.extract tool archive path arch).2.any ToolCall.isArchiveOp = false := by
  unfold ImageResolver.extract
  dsimp only
  rcases hg : r.get_manifest tool with ⟨gres, gtr⟩
  have hgtr : gtr = [.manifestFetch r.image.projectImageUri.render] := by
    have := get_manifest_trace r tool
    rw [hg] at this
    exact this
  rw [hg] at h1
  cases gres with
  | error e => simp at h1
  | ok manifest_list =>
    simp at h1
    subst h1
    dsimp only
    rw [h2]
    dsimp only
    rw [findManifestForArch_none manifest_list.manifests da h3]
    subst hgtr
    exact ⟨rfl, rfl⟩

/-- C8 witness: requesting `x86_64` from an arm64-only manifest list. -/
theorem C8_missing_architecture_witness :
    (sampleResolver.extract armOnlyTool okArchive "p" "x86_64").1 =
      .error (.missingArchitecture "amd64" "reg/repo:v2") :=
  (C8_missing_architecture sampleResolver armOnlyTool okArchive "p" "x86_64"
    ⟨[⟨"d2", some ⟨.arm64⟩⟩]⟩ .amd64 (by decide) rfl
    (by intro e he; simp at he; subst he; exact ⟨⟨.arm64⟩, rfl, by decide⟩)).1

/-- C9 (confirmed, implicit).  The architecture search dereferences every
entry's optional platform descriptor, so `extract` is panic-free exactly
under the precondition that every fetched entry carries one — then it
either selects a matching entry or reports the missing-architecture
error; a manifest entry without a platform descriptor makes the search
panic (second conjunct). -/
theorem C9_platform_precondition (r : ImageResolver) (tool : ImageTool) (archive : ArchiveTool)
    (path arch : String) (mlv : ManifestListView)
    (h1 : (r.get_manifest tool).1 = .ok mlv)
    (h2 : ∀ e ∈ mlv.manifests, e.platform.isSome = true) :
    (r.extract tool archive path arch).1 ≠ .error .panicked ∧
    findManifestForArch [entryNoPlatform] .amd64 = .error () := by
  refine ⟨?_, rfl⟩
  unfold ImageResolver.extract
  dsimp only
  rcases hg : r.get_manifest tool with ⟨gres, gtr⟩
  rw [hg] at h1
  cases gres with
  | error e => simp at h1
  | ok manifest_list =>
    simp at h1
    subst h1
    dsimp only
    cases harch : DockerArchitecture.tryFrom arch with
    | none => simp
    | some da =>
      dsimp only
      cases hf : findManifestForArch manifest_list.manifests da with
      | error u =>
        have := findManifestForArch_ok manifest_list.manifests da h2
        rw [hf] at this
        cases this
      | ok sel =>
        cases sel with
        | none => simp
        | some manifest =>
          dsimp only
          cases hreg : r.image.projectImageUri.registry with
          | none => simp
          | some registry =>
            dsimp only
            cases hp : archive.pull_image registry r.image.projectImageUri.repo manifest.digest with
            | error e2 => simp
            | ok u2 =>
              dsimp only
              cases hu : archive.unpack_layers manifest.digest
                  (path ++ "/" ++ r.image.vendor ++ "/" ++ r.image.name ++ "/" ++ arch) with
              | error e3 => simp
              | ok u3 => simp

/-- C9 witness: the search panics on a platform-less entry, by the
theorem applied at a well-formed fixture. -/
theorem C9_platform_precondition_witness :
    findManifestForArch [entryNoPlatform] .amd64 = .error () :=
  (C9_platform_precondition sampleResolver mismatchTool okArchive "p" "amd64"
    sampleManifestView (by decide) (by decide)).2

/-- C10 (confirmed, implicit).  Once the manifest list is fetched and the
registry resolves, `resolve`'s trace contains exactly two manifest
fetches — both for the project image URI (the second inside
`calculate_digest`), in every continuation including the skip path; a
deterministic image tool makes `resolve` a function of the resolver
state; and a successful resolution's digest addresses exactly the bytes
the tool serves for that URI — the same manifest list whose entries were
validated. -/
theorem C10_double_fetch (r : ImageResolver) (tool : ImageTool) (mlv : ManifestListView)
    (registry : String)
    (h1 : (r.get_manifest tool).1 = .ok mlv)
    (h2 : r.image.projectImageUri.registry = some registry) :
    manifestFetchUris (r.resolve tool).2 =
      [r.image.projectImageUri.render, r.image.projectImageUri.render] ∧
    (∀ tool2 : ImageTool, tool2.get_manifest = tool.get_manifest →
      tool2.get_config = tool.get_config → r.resolve tool2 = r.resolve tool) ∧
    ∀ bytes, tool.get_manifest r.image.projectImageUri.render = .ok bytes →
      digestAddressesBytes (r.resolve tool).1 bytes = true := by
  refine ⟨?_, ?_, ?_⟩
  · unfold ImageResolver.resolve
    dsimp only
    rcases hg : r.get_manifest tool with ⟨gres, gtr⟩
    have hgtr : gtr = [.manifestFetch r.image.projectImageUri.render] := by
      have := get_manifest_trace r tool
      rw [hg] at this
      exact this
    rw [hg] at h1
    cases gres with
    | error e => simp at h1
    | ok manifest_list =>
      simp at h1
      subst h1
      dsimp only
      rw [h2]
      dsimp only
      rcases hd : r.calculate_digest tool with ⟨dres, dtr⟩
      have hdtr : dtr = [.manifestFetch r.image.projectImageUri.render] := by
        have := calculate_digest_trace r tool
        rw [hd] at this
        exact this
      cases dres with
      | error e => subst hgtr; subst hdtr; rfl
      | ok digest =>
        dsimp only
        by_cases hskip : r.skip_metadata_retrieval = true
        · rw [if_pos hskip]
          subst hgtr; subst hdtr
          rfl
        · rw [if_neg hskip]
          cases hml : manifest_list.manifests with
          | nil => subst hgtr; subst hdtr; rfl
          | cons first rest =>
            dsimp only
            rcases ht : EncodedKitMetadata.tryFromImage
                (registry ++ "/" ++ r.image.projectImageUri.repo ++ "@" ++ first.digest) tool
              with ⟨tres, ttr⟩
            have httr : ttr =
                [.configFetch (registry ++ "/" ++ r.image.projectImageUri.repo ++ "@" ++
                  first.digest)] := by
              have := tryFromImage_trace
                (registry ++ "/" ++ r.image.projectImageUri.repo ++ "@" ++ first.digest) tool
              rw [ht] at this
              exact this
            cases tres with
            | error e => subst hgtr; subst hdtr; subst httr; rfl
            | ok canonical =>
              dsimp only
              rcases hv : validateSubsequent registry r.image.projectImageUri.repo tool
                  canonical rest with ⟨vres, vtr⟩
              have hvtr : manifestFetchUris vtr = [] := by
                have := validateSubsequent_no_manifestFetch registry
                  r.image.projectImageUri.repo tool canonical rest
                rw [hv] at this
                exact this
              cases vres with
              | error e =>
                subst hgtr; subst hdtr; subst httr
                simp [manifestFetchUris_append, manifestFetchUris, hvtr]
              | ok u =>
                cases hdec : decodeImageMetadata canonical with
                | error e =>
                  subst hgtr; subst hdtr; subst httr
                  simp [manifestFetchUris_append, manifestFetchUris, hvtr]
                | ok metadata =>
                  subst hgtr; subst hdtr; subst httr
                  simp [manifestFetchUris_append, manifestFetchUris, hvtr]
  · intro tool2 hm hc
    cases tool2 with
    | mk g2 c2 =>
      cases tool with
      | mk g c =>
        dsimp only at hm hc
        subst hm
        subst hc
        rfl
  · intro bytes hb
    cases hres : (r.resolve tool).1 with
    | error e => rfl
    | ok p =>
      cases p with
      | mk locked md =>
        have hdig := resolve_ok_digest r tool locked md hres
        have hcd := calculate_digest_of_bytes r tool bytes hb
        rw [hdig] at hcd
        have hEq : locked.digest = base64Encode (sha256Bytes bytes) := Except.ok.inj hcd
        simp [digestAddressesBytes, hEq]

/-- C10 witness: the skip-path resolution still fetches the manifest
twice, both times at the project image URI. -/
theorem C10_double_fetch_witness :
    manifestFetchUris (skipResolver.resolve mismatchTool).2 =
      ["reg/repo:v2", "reg/repo:v2"] :=
  (C10_double_fetch skipResolver mismatchTool sampleManifestView "reg" (by decide) rfl).1

end Twoliter
